import Mathlib

/-
Verification of the pints optimisation engine
(src/pints/_optimisers/__init__.py) against its specification.

Python floats are modelled by the type F below: rational values plus the
three non-finite values nan, inf and ninf, with IEEE comparison semantics
(every comparison involving nan is false).  The ask/evaluate/tell cycle of
Optimisation.run is modelled by abstracting the underlying optimiser as a
stream fb of reported best scores (one per tell) and a stream stopAt of
self-reported stop messages (none models a falsy return of stop()).
-/

namespace Pints

/-- Model of a Python float: a rational value or one of nan, +inf, -inf. -/
inductive F where
  | nan : F
  | inf : F
  | ninf : F
  | val : ℚ → F
deriving DecidableEq, Repr

/-- IEEE strict less-than on model floats: any comparison with nan is false. -/
def flt : F → F → Bool
  | F.nan, _ => false
  | _, F.nan => false
  | F.inf, _ => false
  | F.ninf, F.ninf => false
  | F.ninf, _ => true
  | F.val _, F.inf => true
  | F.val _, F.ninf => false
  | F.val a, F.val b => decide (a < b)

/-- IEEE negation on model floats. -/
def fneg : F → F
  | F.nan => F.nan
  | F.inf => F.ninf
  | F.ninf => F.inf
  | F.val a => F.val (-a)

/-- IEEE subtraction on model floats (inf - inf = nan, etc.). -/
def fsub : F → F → F
  | F.nan, _ => F.nan
  | _, F.nan => F.nan
  | F.inf, F.inf => F.nan
  | F.inf, _ => F.inf
  | F.ninf, F.ninf => F.nan
  | F.ninf, _ => F.ninf
  | F.val _, F.inf => F.ninf
  | F.val _, F.ninf => F.inf
  | F.val a, F.val b => F.val (a - b)

/-- IEEE absolute value on model floats. -/
def fabs : F → F
  | F.nan => F.nan
  | F.inf => F.inf
  | F.ninf => F.inf
  | F.val a => F.val |a|

/-- Derived initial spread, modelling Optimiser init with sigma0 = None
(lines 58-67): with boundaries, sigma0 = (1/6) * range componentwise;
without, sigma0 = (1/3) * abs x0, then 1 is added at every coordinate whose
current value equals zero (numpy adds the boolean mask sigma0 == 0). -/
def derivedSigma0 {n : ℕ} (bRange : Option (Fin n → ℚ)) (x0 : Fin n → ℚ) :
    Fin n → ℚ :=
  match bRange with
  | some r => fun i => (1 / 6) * r i
  | none => fun i =>
      (1 / 3) * |x0 i| + (if (1 / 3) * |x0 i| = 0 then 1 else 0)

/-- Error message raised by set_population_size during a run. -/
def duringRunMsg : String := "Cannot change population size during run."

/-- Error message raised by set_population_size for sizes below 1. -/
def sizeTooSmallMsg : String := "Population size must be at least 1."

/-- Error message raised by Optimisation.run when no criterion is set. -/
def noCriterionMsg : String := "At least one stopping criterion must be set."

/-- Model of PopulationBasedOptimiser: whether a run is in progress, the
stored population size (None representable), and the value returned by the
algorithm-specific heuristic method. -/
structure PopulationBasedOptimiser where
  running : Bool
  population_size : Option ℤ
  heuristic : ℤ
deriving DecidableEq, Repr

/-- Model of PopulationBasedOptimiser construction: the stored population
size is initialised from the heuristic (line 147). -/
def PopulationBasedOptimiser.init (h : ℤ) : PopulationBasedOptimiser :=
  { running := false, population_size := some h, heuristic := h }

/-- Model of PopulationBasedOptimiser.set_population_size (lines 158-175):
raises while running; a given size below 1 raises; otherwise the given size
(or None) is stored. -/
def PopulationBasedOptimiser.set_population_size
    (o : PopulationBasedOptimiser) (population_size : Option ℤ) :
    Except String PopulationBasedOptimiser :=
  if o.running then Except.error duringRunMsg
  else
    match population_size with
    | some k =>
        if k < 1 then Except.error sizeTooSmallMsg
        else Except.ok { o with population_size := some k }
    | none => Except.ok { o with population_size := none }

/-- Model of PopulationBasedOptimiser.suggested_population_size
(lines 177-195) on natural numbers: given the heuristic value
population_size and an optional multiple, if the multiple m exceeds 1 the
result is m * (((population_size - 1) div m) + 1), else the heuristic value
unchanged.  Python floor division on the nonnegative operands arising here
agrees with natural-number division. -/
def suggested_population_size
    (population_size : ℕ) (round_up_to_multiple_of : Option ℕ) : ℕ :=
  match round_up_to_multiple_of with
  | none => population_size
  | some m =>
      if 1 < m then m * ((population_size - 1) / m + 1) else population_size

/-- Model of the Optimisation driver configuration: the minimising flag
(line 242: true unless the objective is a LogPDF) and the stopping-criteria
configuration (max iterations, max unchanged iterations with its
significance threshold, absolute threshold). -/
structure Optimisation where
  minimising : Bool
  maxIterations : Option ℕ
  maxUnchangedIterations : Option ℕ
  minSignificantChange : ℚ
  threshold : Option F
deriving DecidableEq, Repr

/-- Mutable state of the Optimisation.run loop: iteration count, unchanged
iteration counter, internal best score and its user-facing counterpart. -/
structure RunState where
  iteration : ℕ
  unchanged : ℕ
  fbest : F
  fbestUser : F
deriving DecidableEq, Repr

/-- Initial run state (lines 328-353): iteration and unchanged counters are
zero, internal best is inf, and the user value is fbest when minimising and
the negation of fbest otherwise. -/
def initialState (minimising : Bool) : RunState :=
  { iteration := 0, unchanged := 0, fbest := F.inf,
    fbestUser := if minimising then F.inf else fneg F.inf }

/-- Model of lines 417-432 of Optimisation.run: after tell, compare the new
optimiser best fnew against the global best; on strict improvement, the
unchanged counter is incremented when the improvement magnitude is below
the significance threshold and reset to zero otherwise, and both fbest and
its user value are updated; without strict improvement the counter is
incremented. -/
def updateBest (minimising : Bool) (minSig : ℚ) (fnew : F) (s : RunState) :
    RunState :=
  if flt fnew s.fbest then
    { s with
      unchanged :=
        if flt (fabs (fsub fnew s.fbest)) (F.val minSig) then s.unchanged + 1
        else 0,
      fbest := fnew,
      fbestUser := if minimising then fnew else fneg fnew }
  else { s with unchanged := s.unchanged + 1 }

/-- Reason attached to the halt message kept at the end of a run; each
constructor corresponds to one of the four distinct message texts built in
lines 458-484. -/
inductive HaltReason where
  | maxIterations : HaltReason
  | maxUnchanged : HaltReason
  | threshold : HaltReason
  | optimiserStop : String → HaltReason
deriving DecidableEq, Repr

/-- Model of the stopping-criteria checks of lines 458-484: the checks run
in the fixed order max iterations, max unchanged iterations, threshold,
optimiser stop; every check is evaluated, and each satisfied check
overwrites the kept halt reason. -/
def checkStoppingCriteria (o : Optimisation) (iteration unchanged : ℕ)
    (fbest : F) (stopResult : Option String) : Option HaltReason :=
  let r : Option HaltReason := none
  let r : Option HaltReason :=
    match o.maxIterations with
    | some m => if m ≤ iteration then some HaltReason.maxIterations else r
    | none => r
  let r : Option HaltReason :=
    match o.maxUnchangedIterations with
    | some m => if m ≤ unchanged then some HaltReason.maxUnchanged else r
    | none => r
  let r : Option HaltReason :=
    match o.threshold with
    | some t => if flt fbest t then some HaltReason.threshold else r
    | none => r
  match stopResult with
  | some msg => some (HaltReason.optimiserStop msg)
  | none => r

/-- One pass of the loop body before the stopping checks (lines 409-452):
update the best bookkeeping from the score reported after tell, then
increment the iteration count. -/
def stepState (o : Optimisation) (fb : ℕ → F) (s : RunState) : RunState :=
  let s1 := updateBest o.minimising o.minSignificantChange (fb s.iteration) s
  { s1 with iteration := s1.iteration + 1 }

/-- Model of the while loop of Optimisation.run (lines 407-484), with the
optimiser abstracted by the stream fb of best scores reported after each
tell and the stream stopAt of stop() results: each pass updates the best
and the unchanged counter, increments the iteration count, then evaluates
the stopping criteria; fuel bounds the number of passes, none meaning the
loop was still running after fuel passes. -/
def runLoop (o : Optimisation) (fb : ℕ → F) (stopAt : ℕ → Option String) :
    ℕ → RunState → Option (HaltReason × RunState)
  | 0, _ => none
  | fuel + 1, s =>
      let s2 := stepState o fb s
      match checkStoppingCriteria o s2.iteration s2.unchanged s2.fbest
          (stopAt s.iteration) with
      | some h => some (h, s2)
      | none => runLoop o fb stopAt fuel s2

/-- Model of Optimisation.run (lines 315-506): raise unless at least one
stopping criterion is enabled, otherwise run the loop from the initial
state. -/
def Optimisation.run (o : Optimisation) (fb : ℕ → F)
    (stopAt : ℕ → Option String) (fuel : ℕ) :
    Except String (Option (HaltReason × RunState)) :=
  let has := o.maxIterations.isSome || o.maxUnchangedIterations.isSome ||
    o.threshold.isSome
  if has then Except.ok (runLoop o fb stopAt fuel (initialState o.minimising))
  else Except.error noCriterionMsg

/-- Real-valued remainder with the sign of the divisor, modelling
numpy.remainder for a nonzero divisor. -/
def fmodQ (a m : ℚ) : ℚ := a - m * ⌊a / m⌋

/-- Model of TriangleWaveTransform built from boundaries (lines 662-666):
per-dimension lower and upper bounds. -/
structure TriangleWaveTransform (n : ℕ) where
  lower : Fin n → ℚ
  upper : Fin n → ℚ

/-- Model of TriangleWaveTransform.__call__ (lines 668-672): componentwise,
y is the remainder of x - lower modulo twice the range, z the remainder of
y modulo the range, and the result is (lower + z) * [y < range] +
(upper - z) * [y >= range] with boolean factors as 0 or 1. -/
def TriangleWaveTransform.call {n : ℕ} (t : TriangleWaveTransform n)
    (x : Fin n → ℚ) : Fin n → ℚ :=
  fun i =>
    let lo := t.lower i
    let up := t.upper i
    let r := up - lo
    let y := fmodQ (x i - lo) (2 * r)
    let z := fmodQ y r
    (lo + z) * (if y < r then 1 else 0) + (up - z) * (if r ≤ y then 1 else 0)

/-- C5: with sigma0 unspecified, the derived per-dimension spread is
boundaries.range()/6 when boundaries are given, and abs(x0)/3 otherwise,
except that a coordinate where x0 is exactly zero gets spread 1. -/
theorem C5_derived_sigma0 {n : ℕ} (r x0 : Fin n → ℚ) (i : Fin n) :
    derivedSigma0 (some r) x0 i = r i / 6 ∧
    (x0 i ≠ 0 → derivedSigma0 none x0 i = |x0 i| / 3) ∧
    (x0 i = 0 → derivedSigma0 none x0 i = 1) := by
  refine ⟨?_, ?_, ?_⟩
  · show (1 / 6) * r i = r i / 6
    ring
  · intro h
    have habs : ¬((1 : ℚ) / 3 * |x0 i| = 0) := by
      simp [abs_eq_zero, h]
    show (1 / 3) * |x0 i| + (if (1 / 3) * |x0 i| = 0 then 1 else 0) = |x0 i| / 3
    rw [if_neg habs]
    ring
  · intro h
    show (1 / 3) * |x0 i| + (if (1 / 3) * |x0 i| = 0 then 1 else 0) = 1
    rw [h]
    norm_num

/-- Witness for C5 at concrete inputs. -/
theorem C5_derived_sigma0_witness :
    derivedSigma0 (n := 1) none (fun _ => 0) ⟨0, Nat.one_pos⟩ = 1 ∧
    derivedSigma0 (n := 1) none (fun _ => -6) ⟨0, Nat.one_pos⟩ = 2 := by
  constructor
  · exact (C5_derived_sigma0 (fun _ => 0) (fun _ => 0) ⟨0, Nat.one_pos⟩).2.2 rfl
  · have h := (C5_derived_sigma0 (fun _ => 0) (fun _ => -6)
      ⟨0, Nat.one_pos⟩).2.1 (by norm_num)
    rw [h]
    norm_num

/-- C6: for a heuristic suggestion of at least 1 and an integer multiple m
exceeding 1, suggested_population_size returns ceil(n/m)*m, a multiple of
m that is at least the unrounded suggestion, and equal to it when the
suggestion is already a multiple of m. -/
theorem C6_suggested_population_size (pop m : ℕ) (hp : 1 ≤ pop)
    (hm : 1 < m) :
    suggested_population_size pop (some m) = m * ((pop + m - 1) / m) ∧
    suggested_population_size pop (some m) % m = 0 ∧
    pop ≤ suggested_population_size pop (some m) ∧
    (pop % m = 0 → suggested_population_size pop (some m) = pop) := by
  have hm0 : 0 < m := lt_trans Nat.zero_lt_one hm
  have hdef : suggested_population_size pop (some m)
      = m * ((pop - 1) / m + 1) := by
    simp [suggested_population_size, hm]
  refine ⟨?_, ?_, ?_, ?_⟩
  · rw [hdef]
    have h1 : pop + m - 1 = (pop - 1) + m := by omega
    rw [h1, Nat.add_div_right _ hm0]
  · rw [hdef]
    exact Nat.mul_mod_right m _
  · rw [hdef]
    have h1 := Nat.div_add_mod (pop - 1) m
    have h2 : (pop - 1) % m < m := Nat.mod_lt _ hm0
    have h3 : m * ((pop - 1) / m + 1) = m * ((pop - 1) / m) + m :=
      Nat.mul_succ m _
    omega
  · intro hmod
    obtain ⟨k, hk⟩ := Nat.dvd_of_mod_eq_zero hmod
    rcases Nat.eq_zero_or_pos k with h0 | h0
    · rw [h0, Nat.mul_zero] at hk
      omega
    obtain ⟨j, rfl⟩ : ∃ j, k = j + 1 := ⟨k - 1, by omega⟩
    rw [hdef, hk]
    have h1 : m * (j + 1) - 1 = m * j + (m - 1) := by
      have h2 : m * (j + 1) = m * j + m := Nat.mul_succ m j
      omega
    rw [h1, Nat.mul_add_div hm0]
    have h2 : (m - 1) / m = 0 := Nat.div_eq_of_lt (by omega)
    rw [h2]

/-- Witness for C6 at pop = 5, m = 3. -/
theorem C6_suggested_population_size_witness :
    suggested_population_size 5 (some 3) = 6 ∧
    suggested_population_size 5 (some 3) % 3 = 0 ∧
    5 ≤ suggested_population_size 5 (some 3) := by
  have h := C6_suggested_population_size 5 3 (by decide) (by decide)
  refine ⟨?_, h.2.1, h.2.2.1⟩
  rw [h.1]

/-- C7 counterexample: after set_population_size(None) on a non-running
optimiser whose heuristic value is 4, population_size() returns None, not
the heuristic value, refuting the claim that None makes population_size()
return the recomputed heuristic suggestion. -/
theorem C7_counterexample :
    PopulationBasedOptimiser.set_population_size
        (PopulationBasedOptimiser.init 4) none
      = Except.ok
          { running := false, population_size := none, heuristic := 4 } ∧
    (PopulationBasedOptimiser.mk false none 4).population_size ≠
      some (PopulationBasedOptimiser.init 4).heuristic := by
  exact ⟨rfl, by decide⟩

/-- C7 amended: set_population_size raises while running; a given size
below 1 raises; a given size of at least 1 is stored and then returned by
population_size(); None clears the stored size so population_size()
returns None. -/
theorem C7_set_population_size (o : PopulationBasedOptimiser)
    (n : Option ℤ) :
    (o.running = true →
      PopulationBasedOptimiser.set_population_size o n
        = Except.error duringRunMsg) ∧
    (o.running = false → ∀ k, n = some k → k < 1 →
      PopulationBasedOptimiser.set_population_size o n
        = Except.error sizeTooSmallMsg) ∧
    (o.running = false → ∀ k, n = some k → 1 ≤ k →
      ∃ o2, PopulationBasedOptimiser.set_population_size o n = Except.ok o2 ∧
        o2.population_size = some k) ∧
    (o.running = false → n = none →
      ∃ o2, PopulationBasedOptimiser.set_population_size o n = Except.ok o2 ∧
        o2.population_size = none) := by
  refine ⟨?_, ?_, ?_, ?_⟩
  · intro hr
    simp [PopulationBasedOptimiser.set_population_size, hr]
  · intro hr k hn hk
    subst hn
    simp [PopulationBasedOptimiser.set_population_size, hr, hk]
  · intro hr k hn hk
    subst hn
    refine ⟨{ o with population_size := some k }, ?_, rfl⟩
    simp [PopulationBasedOptimiser.set_population_size, hr]
    omega
  · intro hr hn
    subst hn
    refine ⟨{ o with population_size := none }, ?_, rfl⟩
    simp [PopulationBasedOptimiser.set_population_size, hr]

/-- Witness for C7 amended at concrete inputs. -/
theorem C7_set_population_size_witness :
    PopulationBasedOptimiser.set_population_size
        (PopulationBasedOptimiser.mk true (some 4) 4) none
      = Except.error duringRunMsg ∧
    (∃ o2, PopulationBasedOptimiser.set_population_size
        (PopulationBasedOptimiser.mk false (some 4) 4) (some 7)
      = Except.ok o2 ∧ o2.population_size = some 7) := by
  exact ⟨(C7_set_population_size (PopulationBasedOptimiser.mk true (some 4) 4)
      none).1 rfl,
    (C7_set_population_size (PopulationBasedOptimiser.mk false (some 4) 4)
      (some 7)).2.2.1 rfl 7 rfl (by decide)⟩

/-- C8: Optimisation.run raises before any iteration exactly when all
three stopping criteria are disabled. -/
theorem C8_stopping_criterion_required (o : Optimisation) (fb : ℕ → F)
    (stopAt : ℕ → Option String) (fuel : ℕ) :
    (∃ e, Optimisation.run o fb stopAt fuel = Except.error e) ↔
      (o.maxIterations = none ∧ o.maxUnchangedIterations = none ∧
        o.threshold = none) := by
  obtain ⟨mi, mit, mui, msc, th⟩ := o
  rcases mit with _ | m1 <;> rcases mui with _ | m2 <;> rcases th with _ | t <;>
    simp [Optimisation.run]

/-- C2: after tell, the unchanged-iteration counter resets to zero on a
strict improvement of magnitude at least the significance threshold,
increments on a strict improvement of smaller magnitude, and increments
when there was no strict improvement. -/
theorem C2_unchanged_counter (minimising : Bool) (minSig : ℚ) (fnew : F)
    (s : RunState) :
    (flt fnew s.fbest = true →
      flt (fabs (fsub fnew s.fbest)) (F.val minSig) = false →
      (updateBest minimising minSig fnew s).unchanged = 0) ∧
    (flt fnew s.fbest = true →
      flt (fabs (fsub fnew s.fbest)) (F.val minSig) = true →
      (updateBest minimising minSig fnew s).unchanged = s.unchanged + 1) ∧
    (flt fnew s.fbest = false →
      (updateBest minimising minSig fnew s).unchanged = s.unchanged + 1) := by
  refine ⟨?_, ?_, ?_⟩
  · intro h1 h2
    simp [updateBest, h1, h2]
  · intro h1 h2
    simp [updateBest, h1, h2]
  · intro h1
    simp [updateBest, h1]

/-- Witness for C2 at concrete inputs: a large improvement resets, a small
improvement increments, no improvement increments. -/
theorem C2_unchanged_counter_witness :
    (updateBest true 1 (F.val 0) (RunState.mk 0 5 F.inf F.inf)).unchanged
        = 0 ∧
    (updateBest true 2 (F.val 0)
        (RunState.mk 0 5 (F.val 1) (F.val 1))).unchanged = 6 ∧
    (updateBest true 1 (F.val 3)
        (RunState.mk 0 5 (F.val 0) (F.val 0))).unchanged = 6 := by
  exact ⟨(C2_unchanged_counter true 1 (F.val 0)
      (RunState.mk 0 5 F.inf F.inf)).1 (by decide) (by decide),
    (C2_unchanged_counter true 2 (F.val 0)
      (RunState.mk 0 5 (F.val 1) (F.val 1))).2.1
      (by decide) (by simp [fsub, fabs, flt]),
    (C2_unchanged_counter true 1 (F.val 3)
      (RunState.mk 0 5 (F.val 0) (F.val 0))).2.2 (by decide)⟩

/-- C9: a NaN best score never satisfies the threshold comparison, so the
threshold criterion is never the halt reason when the best score is NaN;
non-finite scores flow through the comparisons unchanged. -/
theorem C9_nan_threshold (o : Optimisation) (iteration unchanged : ℕ)
    (stopResult : Option String) (t : F) (ht : o.threshold = some t) :
    flt F.nan t = false ∧
    checkStoppingCriteria o iteration unchanged F.nan stopResult ≠
      some HaltReason.threshold := by
  have hnan : flt F.nan t = false := by cases t <;> rfl
  refine ⟨hnan, ?_⟩
  obtain ⟨mi, mit, mui, msc, th⟩ := o
  simp only [Optimisation.threshold] at ht
  subst ht
  rcases stopResult with _ | msg
  · rcases mit with _ | m1 <;> rcases mui with _ | m2 <;>
      simp [checkStoppingCriteria, hnan] <;> split <;> simp
  · simp [checkStoppingCriteria]

/-- Witness for C9 at concrete inputs: max iterations also fires but the
result is never the threshold reason. -/
theorem C9_nan_threshold_witness :
    flt F.nan (F.val 0) = false ∧
    checkStoppingCriteria (Optimisation.mk true (some 10) none 1
        (some (F.val 0))) 3 0 F.nan none ≠ some HaltReason.threshold := by
  exact ⟨(C9_nan_threshold (Optimisation.mk true (some 10) none 1
      (some (F.val 0))) 3 0 none (F.val 0) rfl).1,
    (C9_nan_threshold (Optimisation.mk true (some 10) none 1
      (some (F.val 0))) 3 0 none (F.val 0) rfl).2⟩

/-- C1 counterexample: a run in which both the max-iterations criterion
(iteration 1 of at most 1) and the threshold criterion (best 0 below
threshold 1) are satisfied on the same iteration halts with the threshold
reason, not with the reason of the first satisfied criterion in the check
order. -/
theorem C1_counterexample :
    Optimisation.run (Optimisation.mk true (some 1) none 1 (some (F.val 1)))
        (fun _ => F.val 0) (fun _ => none) 2
      = Except.ok (some (HaltReason.threshold,
          RunState.mk 1 0 (F.val 0) (F.val 0))) ∧
    (1 : ℕ) ≤ 1 ∧
    flt (F.val 0) (F.val 1) = true ∧
    HaltReason.threshold ≠ HaltReason.maxIterations := by
  exact ⟨rfl, le_refl 1, by decide, by decide⟩

/-- C1 amended: the criteria are all checked every iteration in the fixed
order max iterations, max unchanged iterations, threshold, optimiser
stop(), and each satisfied check overwrites the kept halt reason, so the
reason kept is that of the last satisfied criterion in that order. -/
theorem C1_halt_reason_order (o : Optimisation) (iteration unchanged : ℕ)
    (fbest : F) (stopResult : Option String) :
    (∀ msg, stopResult = some msg →
      checkStoppingCriteria o iteration unchanged fbest stopResult
        = some (HaltReason.optimiserStop msg)) ∧
    (stopResult = none → ∀ t, o.threshold = some t → flt fbest t = true →
      checkStoppingCriteria o iteration unchanged fbest stopResult
        = some HaltReason.threshold) ∧
    (stopResult = none →
      (∀ t, o.threshold = some t → flt fbest t = false) →
      ∀ m, o.maxUnchangedIterations = some m → m ≤ unchanged →
      checkStoppingCriteria o iteration unchanged fbest stopResult
        = some HaltReason.maxUnchanged) ∧
    (stopResult = none →
      (∀ t, o.threshold = some t → flt fbest t = false) →
      (∀ m, o.maxUnchangedIterations = some m → unchanged < m) →
      ∀ m, o.maxIterations = some m → m ≤ iteration →
      checkStoppingCriteria o iteration unchanged fbest stopResult
        = some HaltReason.maxIterations) := by
  obtain ⟨mi, mit, mui, msc, th⟩ := o
  refine ⟨?_, ?_, ?_, ?_⟩
  · intro msg hmsg
    subst hmsg
    simp [checkStoppingCriteria]
  · intro hstop t hth hlt
    subst hstop
    simp only [Optimisation.threshold] at hth
    subst hth
    simp [checkStoppingCriteria, hlt]
  · intro hstop hth m hm hle
    subst hstop
    simp only [Optimisation.maxUnchangedIterations] at hm
    subst hm
    rcases th with _ | t
    · simp [checkStoppingCriteria, hle]
    · have ht := hth t rfl
      simp [checkStoppingCriteria, hle, ht]
  · intro hstop hth hun m hm hle
    subst hstop
    simp only [Optimisation.maxIterations] at hm
    subst hm
    have hun2 : ∀ k, mui = some k → ¬(k ≤ unchanged) := by
      intro k hk
      have := hun k hk
      omega
    rcases th with _ | t <;> rcases mui with _ | k
    · simp [checkStoppingCriteria, hle]
    · have hk := hun2 k rfl
      simp [checkStoppingCriteria, hle, hk]
    · have ht := hth t rfl
      simp [checkStoppingCriteria, hle, ht]
    · have ht := hth t rfl
      have hk := hun2 k rfl
      simp [checkStoppingCriteria, hle, ht, hk]

/-- Witness for C1 amended: in the counterexample situation, with both max
iterations and threshold satisfied and stop() falsy, the kept reason is
the threshold one. -/
theorem C1_halt_reason_order_witness :
    checkStoppingCriteria (Optimisation.mk true (some 1) none 1
        (some (F.val 1))) 1 0 (F.val 0) none = some HaltReason.threshold := by
  exact (C1_halt_reason_order (Optimisation.mk true (some 1) none 1
    (some (F.val 1))) 1 0 (F.val 0) none).2.1 rfl (F.val 1) rfl (by decide)

lemma fmodQ_eq_self {a m : ℚ} (h0 : 0 ≤ a) (h1 : a < m) : fmodQ a m = a := by
  have hm : 0 < m := lt_of_le_of_lt h0 h1
  have hf : ⌊a / m⌋ = 0 := by
    rw [Int.floor_eq_zero_iff]
    exact ⟨div_nonneg h0 hm.le, by rw [div_lt_one hm]; exact h1⟩
  simp [fmodQ, hf]

lemma fmodQ_add_right {a m : ℚ} (hm : m ≠ 0) : fmodQ (a + m) m = fmodQ a m := by
  unfold fmodQ
  have hdiv : (a + m) / m = a / m + 1 := by
    field_simp
  rw [hdiv, Int.floor_add_one]
  push_cast
  ring

/-- C4: with strictly ordered bounds, the triangle wave transform is the
identity on every point of the box [lower, upper) componentwise, and is
periodic with period 2 * (upper - lower) componentwise. -/
theorem C4_triangle_wave {n : ℕ} (t : TriangleWaveTransform n)
    (x : Fin n → ℚ) (hb : ∀ i, t.lower i < t.upper i) :
    ((∀ i, t.lower i ≤ x i ∧ x i < t.upper i) → t.call x = x) ∧
    t.call (fun i => x i + 2 * (t.upper i - t.lower i)) = t.call x := by
  constructor
  · intro hin
    funext i
    obtain ⟨hl, hu⟩ := hin i
    have hr : 0 < t.upper i - t.lower i := by linarith [hb i]
    have h0 : 0 ≤ x i - t.lower i := by linarith
    have h1 : x i - t.lower i < t.upper i - t.lower i := by linarith
    have h2 : x i - t.lower i < 2 * (t.upper i - t.lower i) := by linarith
    simp only [TriangleWaveTransform.call]
    rw [fmodQ_eq_self h0 h2, fmodQ_eq_self h0 h1]
    rw [if_pos h1, if_neg (not_le.mpr h1)]
    ring
  · funext i
    have hm : 2 * (t.upper i - t.lower i) ≠ 0 := by
      have := hb i
      intro hc
      have : t.upper i - t.lower i = 0 := by linarith
      linarith [hb i]
    simp only [TriangleWaveTransform.call]
    have hkey : x i + 2 * (t.upper i - t.lower i) - t.lower i
        = (x i - t.lower i) + 2 * (t.upper i - t.lower i) := by ring
    rw [hkey, fmodQ_add_right hm]

/-- Concrete transform on one dimension with bounds 0 and 1, for the C4
witness. -/
def twExample : TriangleWaveTransform 1 :=
  { lower := fun _ => 0, upper := fun _ => 1 }

/-- Witness for C4 at a concrete point inside the box. -/
theorem C4_triangle_wave_witness :
    twExample.call (fun _ => 1 / 2) = fun _ => (1 / 2 : ℚ) := by
  exact (C4_triangle_wave twExample (fun _ => 1 / 2)
      (fun i => by norm_num [twExample])).1
    (fun i => by norm_num [twExample])

lemma updateBest_iteration (m : Bool) (g : ℚ) (f : F) (s : RunState) :
    (updateBest m g f s).iteration = s.iteration := by
  unfold updateBest
  split <;> rfl

lemma stepState_iteration (o : Optimisation) (fb : ℕ → F) (s : RunState) :
    (stepState o fb s).iteration = s.iteration + 1 := by
  simp [stepState, updateBest_iteration]

lemma updateBest_userValue (m : Bool) (g : ℚ) (f : F) (s : RunState)
    (h : s.fbestUser = if m then s.fbest else fneg s.fbest) :
    (updateBest m g f s).fbestUser =
      if m then (updateBest m g f s).fbest
      else fneg (updateBest m g f s).fbest := by
  unfold updateBest
  split
  · rfl
  · simpa using h

lemma stepState_userValue (o : Optimisation) (fb : ℕ → F) (s : RunState)
    (h : s.fbestUser = if o.minimising then s.fbest else fneg s.fbest) :
    (stepState o fb s).fbestUser =
      if o.minimising then (stepState o fb s).fbest
      else fneg (stepState o fb s).fbest := by
  simp only [stepState]
  exact updateBest_userValue o.minimising o.minSignificantChange
    (fb s.iteration) s h

lemma runLoop_userValue (o : Optimisation) (fb : ℕ → F)
    (stopAt : ℕ → Option String) (fuel : ℕ) :
    ∀ s, s.fbestUser = (if o.minimising then s.fbest else fneg s.fbest) →
    ∀ h st, runLoop o fb stopAt fuel s = some (h, st) →
    st.fbestUser = if o.minimising then st.fbest else fneg st.fbest := by
  induction fuel with
  | zero =>
      intro s hs h st hrun
      simp [runLoop] at hrun
  | succ f ih =>
      intro s hs h st hrun
      rw [runLoop] at hrun
      have hstep := stepState_userValue o fb s hs
      split at hrun
      · rename_i heq
        injection hrun with hpair
        obtain ⟨rfl, rfl⟩ := Prod.mk.injEq .. ▸ Prod.mk.inj hpair
        exact hstep
      · exact ih (stepState o fb s) hstep h st hrun

/-- C3: when the run halts, the returned user-facing best value equals the
negation of the internally minimised best score if the objective was a
LogPDF (minimising false), and equals it unchanged for an ErrorMeasure
(minimising true). -/
theorem C3_sign_convention (o : Optimisation) (fb : ℕ → F)
    (stopAt : ℕ → Option String) (fuel : ℕ) (h : HaltReason) (st : RunState)
    (hrun : Optimisation.run o fb stopAt fuel = Except.ok (some (h, st))) :
    (o.minimising = false → st.fbestUser = fneg st.fbest) ∧
    (o.minimising = true → st.fbestUser = st.fbest) := by
  have hloop : runLoop o fb stopAt fuel (initialState o.minimising)
      = some (h, st) := by
    by_cases hcrit : (o.maxIterations.isSome || o.maxUnchangedIterations.isSome
        || o.threshold.isSome) = true
    · simpa [Optimisation.run, hcrit] using hrun
    · simp [Optimisation.run, hcrit] at hrun
  have hinit : (initialState o.minimising).fbestUser =
      if o.minimising then (initialState o.minimising).fbest
      else fneg (initialState o.minimising).fbest := by
    cases hm : o.minimising <;> simp [initialState, hm]
  have hmain := runLoop_userValue o fb stopAt fuel
    (initialState o.minimising) hinit h st hloop
  constructor
  · intro hm
    rw [hm] at hmain
    simpa using hmain
  · intro hm
    rw [hm] at hmain
    simpa using hmain

/-- Witness for C3: a concrete maximising run whose reported best is the
negation of the internal best. -/
theorem C3_sign_convention_witness :
    (RunState.mk 1 0 (F.val 2) (F.val (-2))).fbestUser =
      fneg (RunState.mk 1 0 (F.val 2) (F.val (-2))).fbest := by
  exact (C3_sign_convention (Optimisation.mk false (some 1) none 1 none)
    (fun _ => F.val 2) (fun _ => none) 2 HaltReason.maxIterations
    (RunState.mk 1 0 (F.val 2) (F.val (-2))) rfl).1 rfl

lemma runLoop_maxIterations_only (mi : Bool) (msc : ℚ) (n : ℕ)
    (fb : ℕ → F) (fuel : ℕ) :
    ∀ s, 1 ≤ fuel → n ≤ s.iteration + fuel →
    ∃ st, runLoop (Optimisation.mk mi (some n) none msc none) fb
        (fun _ => none) fuel s = some (HaltReason.maxIterations, st) ∧
      st.iteration = max n (s.iteration + 1) := by
  induction fuel with
  | zero =>
      intro s h1 h2
      omega
  | succ f ih =>
      intro s h1 h2
      have hit : (stepState (Optimisation.mk mi (some n) none msc none)
          fb s).iteration = s.iteration + 1 := stepState_iteration _ fb s
      by_cases hle : n ≤ s.iteration + 1
      · refine ⟨stepState (Optimisation.mk mi (some n) none msc none) fb s,
          ?_, ?_⟩
        · rw [runLoop]
          simp [checkStoppingCriteria, hit, hle]
        · rw [hit]
          omega
      · have h1f : 1 ≤ f := by omega
        have h2f : n ≤ (stepState (Optimisation.mk mi (some n) none msc none)
            fb s).iteration + f := by
          rw [hit]
          omega
        obtain ⟨st, hrun, hst⟩ := ih
          (stepState (Optimisation.mk mi (some n) none msc none) fb s)
          h1f h2f
        refine ⟨st, ?_, ?_⟩
        · rw [runLoop]
          simp [checkStoppingCriteria, hit, hle, hrun]
        · rw [hst, hit]
          omega

/-- C10: with only the max-iterations criterion enabled at value n and a
never-stopping optimiser, the run halts with the max-iterations reason
after exactly max n 1 iterations; in particular n = 0 still performs one
full iteration, because the iteration count is incremented before the
criteria are checked. -/
theorem C10_iteration_count (mi : Bool) (msc : ℚ) (n : ℕ) (fb : ℕ → F) :
    ∃ st : RunState,
      Optimisation.run (Optimisation.mk mi (some n) none msc none) fb
          (fun _ => none) (n + 1)
        = Except.ok (some (HaltReason.maxIterations, st)) ∧
      st.iteration = max n 1 := by
  obtain ⟨st, hrun, hst⟩ := runLoop_maxIterations_only mi msc n fb (n + 1)
    (initialState mi) (by omega) (by simp [initialState])
  refine ⟨st, ?_, ?_⟩
  · simp only [Optimisation.run, Option.isSome_some, Bool.true_or, if_true]
    exact congrArg Except.ok hrun
  · simpa [initialState] using hst

end Pints
